import Mathlib

/-!
Verification of the Stock Monitoring & Inventory Management system.

The repository ships `main.py` (CSV loaders and the interactive menu loop),
which drives an `InventorySystem` object (product store, transaction queue,
processor, ranking and alert engines).  The `InventorySystem` module itself is
not part of the sources at hand, so its operations are modelled from the
specification; `main.py` is embedded directly.

String processing (Python's `str.strip`, `str.upper`, `int(...)`,
`float(...)`, `datetime.strptime`) is modelled over the character list of a
string so that every definition evaluates by kernel reduction.
-/

/-- Model of Python `str.strip` on the left edge: drop leading whitespace. -/
def stripWsLeft : List Char → List Char
  | [] => []
  | c :: r => if c.isWhitespace then stripWsLeft r else c :: r

/-- Model of Python `str.strip`: drop whitespace from both ends. -/
def stripChars (l : List Char) : List Char :=
  ((stripWsLeft ((stripWsLeft l).reverse)).reverse)

/-- Model of Python `str.strip` at string level. -/
def pyStrip (s : String) : String :=
  String.mk (stripChars s.data)

/-- Model of Python `str.upper` (ASCII letters, as used for product ids). -/
def pyUpper (s : String) : String :=
  String.mk (s.data.map Char.toUpper)

/-- Value of a decimal digit character. -/
def digitVal (c : Char) : Nat :=
  c.toNat - 48

/-- Parse a non-empty all-digit character list as a natural number. -/
def digitsToNat? (l : List Char) : Option Nat :=
  if l ≠ [] ∧ l.all Char.isDigit then
    some (l.foldl (fun n c => 10 * n + digitVal c) 0)
  else none

/-- Split a character list on a separator character (model of `str.split`
with a one-character separator, keeping empty pieces). -/
def splitOnChar (sep : Char) : List Char → List (List Char)
  | [] => [[]]
  | c :: r =>
      let rest := splitOnChar sep r
      if c = sep then [] :: rest
      else
        match rest with
        | [] => [[c]]
        | h :: t => (c :: h) :: t

/-- Model of Python `int(...)` on a string: optional surrounding whitespace,
optional sign, then decimal digits; anything else raises, modelled as
`none`.  (Underscore digit separators are not modelled.) -/
def parseIntPy (s : String) : Option Int :=
  match stripChars s.data with
  | '-' :: rest => (digitsToNat? rest).map (fun n => -(n : Int))
  | '+' :: rest => (digitsToNat? rest).map (fun n => (n : Int))
  | l => (digitsToNat? l).map (fun n => (n : Int))

/-- Unsigned part of the `float(...)` model: digits with an optional
fractional part, as an exact rational. -/
def parseFloatMag (l : List Char) : Option ℚ :=
  match splitOnChar '.' l with
  | [a] => (digitsToNat? a).map (fun n => (n : ℚ))
  | [a, b] =>
      match digitsToNat? a, digitsToNat? b with
      | some n, some f => some ((n : ℚ) + (f : ℚ) / (10 : ℚ) ^ b.length)
      | _, _ => none
  | _ => none

/-- Model of Python `float(...)` on a string, for the decimal literals the
product CSV carries: optional whitespace and sign, digits with an optional
fractional part, yielding an exact rational.  (Exponent forms, `inf`/`nan`
and edge literals like `".5"` are not modelled and yield `none`.) -/
def parseFloatPy (s : String) : Option ℚ :=
  match stripChars s.data with
  | '-' :: rest => (parseFloatMag rest).map (fun q => -q)
  | '+' :: rest => parseFloatMag rest
  | l => parseFloatMag l

/-- Modelled from the spec: product identifiers are trimmed and
case-normalized to upper case (Python `.strip().upper()`). -/
def normalizeId (s : String) : String :=
  String.mk ((stripChars s.data).map Char.toUpper)

/-- Modelled from the spec: a Product record — identifier, name, category,
current quantity, unit price, low-stock threshold, cumulative units sold.
Quantities are integers (the non-negativity is an invariant to be proved,
not baked into the type); the price is a rational standing in for the real
unit price. -/
structure Product where
  id : String
  name : String
  category : String
  quantity : Int
  price : ℚ
  threshold : Int
  total_sold : Int
deriving DecidableEq

/-- Modelled from the spec: the recoverable error kinds of the core. -/
inductive StoreError where
  | duplicateId
  | invalidArgument
  | notFound
  | insufficientStock
deriving DecidableEq

/-- Modelled from the spec: timestamps in `YYYY-MM-DD HH:MM:SS` form, carried
as metadata on transactions. -/
structure Timestamp where
  year : Nat
  month : Nat
  day : Nat
  hour : Nat
  minute : Nat
  second : Nat
deriving DecidableEq

/-- Model of Python `datetime.strptime(s, "%Y-%m-%d %H:%M:%S")`: the string
must be `date SPACE time` with dash-separated year, month, day and
colon-separated hour, minute, second, all decimal, with the field ranges
checked; any other shape raises, modelled as `none`.  (Per-month day counts
and leap years are simplified to `day ≤ 31`.) -/
def parseTimestamp (s : String) : Option Timestamp :=
  match splitOnChar ' ' s.data with
  | [d, t] =>
      match splitOnChar '-' d, splitOnChar ':' t with
      | [ys, ms, ds], [hs, mis, ss] =>
          match digitsToNat? ys, digitsToNat? ms, digitsToNat? ds,
                digitsToNat? hs, digitsToNat? mis, digitsToNat? ss with
          | some y, some mo, some da, some h, some mi, some se =>
              if 1 ≤ mo ∧ mo ≤ 12 ∧ 1 ≤ da ∧ da ≤ 31 ∧ h ≤ 23 ∧ mi ≤ 59 ∧ se ≤ 59 then
                some ⟨y, mo, da, h, mi, se⟩
              else none
          | _, _, _, _, _, _ => none
      | _, _ => none
  | _ => none

/-- Modelled from the spec: a Transaction — target product id, kind
("stock-in" or "sale", string-typed as in the source), positive quantity,
and a timestamp that is metadata only. -/
structure Transaction where
  productId : String
  kind : String
  quantity : Int
  timestamp : Timestamp
deriving DecidableEq

/-- Modelled from the spec: the whole in-memory system state — the keyed
product store (kept as a list of records, keyed by normalized id) and the
FIFO transaction queue. -/
structure InventorySystem where
  products : List Product
  queue : List Transaction
deriving DecidableEq

/-- Modelled from the spec: constant-time keyed lookup of a product by
(normalized) identifier; absent id yields `none`, not an error. -/
def findProduct (ps : List Product) (key : String) : Option Product :=
  ps.find? (fun p => decide (p.id = normalizeId key))

/-- Replace the product with the given record's id by that record, leaving
every other product untouched (the write half of the keyed update). -/
def setProduct (ps : List Product) (p' : Product) : List Product :=
  ps.map (fun x => if x.id = p'.id then p' else x)

/-- Modelled from the spec: `add(id, name, category, qty, price, threshold)`
— id trimmed and upper-cased, `InvalidArgument` when qty, price or threshold
is negative, `DuplicateId` when the id is already present; otherwise the new
product starts with `total_sold = 0`. -/
def add_product (sys : InventorySystem) (id name category : String)
    (qty : Int) (price : ℚ) (threshold : Int) :
    Except StoreError InventorySystem :=
  if qty < 0 ∨ price < 0 ∨ threshold < 0 then
    .error .invalidArgument
  else
    match findProduct sys.products id with
    | some _ => .error .duplicateId
    | none =>
        .ok { sys with
              products :=
                sys.products ++ [⟨normalizeId id, name, category, qty, price, threshold, 0⟩] }

/-- Modelled from the spec: `setQuantity(id, newQty)` — direct override used
by manual stock correction; `InvalidArgument` when newQty < 0, `NotFound`
when the id is absent. -/
def update_quantity (sys : InventorySystem) (id : String) (newQty : Int) :
    Except StoreError InventorySystem :=
  if newQty < 0 then
    .error .invalidArgument
  else
    match findProduct sys.products id with
    | none => .error .notFound
    | some p =>
        .ok { sys with products := setProduct sys.products { p with quantity := newQty } }

/-- Modelled from the spec: `applyDelta(id, signedDelta)` — atomic
check-then-set; `NotFound` for an absent id, `InsufficientStock` (store left
unchanged) when the resulting quantity would be negative; on success the
quantity is updated and, for a negative delta (a sale), total-sold grows by
the sold magnitude. -/
def applyDelta (ps : List Product) (id : String) (delta : Int) :
    Except StoreError (List Product) :=
  match findProduct ps id with
  | none => .error .notFound
  | some p =>
      if p.quantity + delta < 0 then
        .error .insufficientStock
      else
        .ok (setProduct ps
          { p with
            quantity := p.quantity + delta
            total_sold := p.total_sold + (if delta < 0 then -delta else 0) })

/-- Modelled from the spec: `enqueue(productId, kind, quantity, timestamp)`
— quantity must be positive and kind one of "stock-in"/"sale"; buffers the
transaction at the back of the FIFO queue without touching the store. -/
def enqueue_transaction (sys : InventorySystem) (pid kind : String)
    (qty : Int) (ts : Timestamp) : Except StoreError InventorySystem :=
  if qty ≤ 0 then
    .error .invalidArgument
  else if kind ≠ "stock-in" ∧ kind ≠ "sale" then
    .error .invalidArgument
  else
    .ok { sys with queue := sys.queue ++ [⟨pid, kind, qty, ts⟩] }

/-- Modelled from the spec: one entry of the processing result log. -/
inductive ProcessingResult where
  | applied (id : String) (newQuantity totalSold : Int)
  | rejectedNotFound (id : String)
  | rejectedInsufficientStock (id : String)
deriving DecidableEq

/-- The product id a processing-result entry refers to. -/
def ProcessingResult.pid : ProcessingResult → String
  | .applied id _ _ => id
  | .rejectedNotFound id => id
  | .rejectedInsufficientStock id => id

/-- Modelled from the spec: process one dequeued transaction — resolve the
product (`Rejected(NotFound)` when absent), compute the signed delta
(stock-in positive, sale negative), call `applyDelta`, and record either
`Rejected(InsufficientStock)` (store unchanged) or
`Applied(newQuantity, totalSold)`. -/
def processOne (ps : List Product) (t : Transaction) :
    ProcessingResult × List Product :=
  match findProduct ps t.productId with
  | none => (.rejectedNotFound t.productId, ps)
  | some p =>
      let delta : Int := if t.kind = "sale" then -t.quantity else t.quantity
      match applyDelta ps t.productId delta with
      | .error _ => (.rejectedInsufficientStock t.productId, ps)
      | .ok ps' =>
          (.applied t.productId (p.quantity + delta)
            (p.total_sold + (if delta < 0 then -delta else 0)), ps')

/-- Modelled from the spec: drain a transaction list front to back against a
store, collecting the result log in processing order. -/
def processList (ps : List Product) : List Transaction →
    List ProcessingResult × List Product
  | [] => ([], ps)
  | t :: rest =>
      let step := processOne ps t
      let tail := processList step.2 rest
      (step.1 :: tail.1, tail.2)

/-- Modelled from the spec: `processAll()` — single pass over the FIFO queue
until empty; afterwards the queue is empty and the result log is the only
trace of rejections. -/
def process_transactions (sys : InventorySystem) :
    List ProcessingResult × InventorySystem :=
  let out := processList sys.products sys.queue
  (out.1, { products := out.2, queue := [] })


/-- Modelled from the spec: the ranking order of `topSellers` — total-sold
descending, ties broken by product identifier ascending (lexicographic). -/
def rankRel (a b : Product) : Prop :=
  b.total_sold < a.total_sold ∨
    (a.total_sold = b.total_sold ∧ (a.id < b.id ∨ a.id = b.id))

instance : DecidableRel rankRel := fun a b => by
  unfold rankRel
  exact inferInstance

/-- The catalog sorted for ranking: total-sold descending, id ascending on
ties. -/
def rankedProducts (ps : List Product) : List Product :=
  List.insertionSort rankRel ps

/-- Modelled from the spec: `topSellers(k)` — at most `k` `(name, totalSold)`
pairs by total-sold descending (ties by id ascending); an empty catalog
yields a descriptive string instead of a list, which the menu layer detects
with an `isinstance(..., str)` check. -/
def get_top_sellers (sys : InventorySystem) (k : Nat) :
    Sum String (List (String × Int)) :=
  if sys.products = [] then
    Sum.inl "No sales data available"
  else
    Sum.inr (((rankedProducts sys.products).take k).map
      (fun p => (p.name, p.total_sold)))

/-- Modelled from the spec: a low-stock alert record
`{id, name, current_qty, threshold, shortage}`. -/
structure Alert where
  id : String
  name : String
  current_qty : Int
  threshold : Int
  shortage : Int
deriving DecidableEq

/-- The alert generated for one product below its threshold. -/
def mkAlert (p : Product) : Alert :=
  ⟨p.id, p.name, p.quantity, p.threshold, p.threshold - p.quantity⟩

/-- Modelled from the spec: the alert order — shortage descending (most
critical first). -/
def alertRel (a b : Alert) : Prop :=
  b.shortage ≤ a.shortage

instance : DecidableRel alertRel := fun a b => by
  unfold alertRel
  exact inferInstance

/-- Modelled from the spec: `lowStockAlerts()` — one alert, with
`shortage = threshold − currentQty`, for exactly the products with
`currentQty < threshold`, ordered by shortage descending. -/
def get_low_stock_alerts (sys : InventorySystem) : List Alert :=
  List.insertionSort alertRel
    ((sys.products.filter (fun p => decide (p.quantity < p.threshold))).map mkAlert)

/-- Call `add_product` with the result discarded, as the callers in `main.py`
that ignore the returned `(success, msg)` pair behave. -/
def addProductIgnore (sys : InventorySystem) (id name category : String)
    (qty : Int) (price : ℚ) (threshold : Int) : InventorySystem :=
  match add_product sys id name category qty price threshold with
  | .ok sys' => sys'
  | .error _ => sys

/-- Call `update_quantity` with the result discarded. -/
def updateQuantityIgnore (sys : InventorySystem) (id : String) (newQty : Int) :
    InventorySystem :=
  match update_quantity sys id newQty with
  | .ok sys' => sys'
  | .error _ => sys

/-- Call `enqueue_transaction` with the result discarded. -/
def enqueueIgnore (sys : InventorySystem) (pid kind : String) (qty : Int)
    (ts : Timestamp) : InventorySystem :=
  match enqueue_transaction sys pid kind qty ts with
  | .ok sys' => sys'
  | .error _ => sys

/-- One data row of `products.csv`, all fields still text. -/
structure ProductRow where
  product_id : String
  name : String
  category : String
  initial_qty : String
  price : String
  threshold : String
deriving DecidableEq

/-- One data row of `transactions.csv`, all fields still text. -/
structure TransactionRow where
  product_id : String
  type : String
  quantity : String
  timestamp : String
deriving DecidableEq

/-- Does a product row survive `int(...)` / `float(...)` conversion?  This
is the condition under which `load_products_from_csv` keeps iterating. -/
def productRowParses (r : ProductRow) : Bool :=
  (parseIntPy r.initial_qty).isSome && (parseFloatPy r.price).isSome &&
    (parseIntPy r.threshold).isSome

/-- The effect of one successfully parsed product row on the system:
`system.add_product(...)` with its result ignored; a row that fails to
parse leaves the system as is (the loader has already aborted). -/
def addRow (sys : InventorySystem) (r : ProductRow) : InventorySystem :=
  match parseIntPy r.initial_qty, parseFloatPy r.price, parseIntPy r.threshold with
  | some q, some pr, some th =>
      addProductIgnore sys r.product_id r.name r.category q pr th
  | _, _, _ => sys

/-- The row loop of `load_products_from_csv` (src/main.py:12-26): convert
each row's numeric fields and call `add_product`; the first conversion
failure raises, is caught by the surrounding `except`, and ends the whole
load with an error message — rows already added stay in the store. -/
def loadProductsGo (sys : InventorySystem) (count : Nat)
    (rows : List ProductRow) : (Bool × String) × InventorySystem :=
  match rows with
  | [] => ((true, "Loaded " ++ toString count ++ " products"), sys)
  | r :: rest =>
      match parseIntPy r.initial_qty, parseFloatPy r.price, parseIntPy r.threshold with
      | some q, some pr, some th =>
          loadProductsGo (addProductIgnore sys r.product_id r.name r.category q pr th)
            (count + 1) rest
      | _, _, _ => ((false, "Error: invalid row"), sys)

/-- Embeds `load_products_from_csv` (src/main.py:10-30): `none` models a missing
file (`FileNotFoundError`); otherwise the row loop runs over the parsed CSV
rows.  Returns the `(success, message)` pair and the resulting system. -/
def load_products_from_csv (sys : InventorySystem)
    (file : Option (List ProductRow)) : (Bool × String) × InventorySystem :=
  match file with
  | none => ((false, "Products file not found"), sys)
  | some rows => loadProductsGo sys 0 rows

/-- Does a transaction row survive `strptime` and `int(...)` conversion? -/
def txRowParses (r : TransactionRow) : Bool :=
  (parseTimestamp r.timestamp).isSome && (parseIntPy r.quantity).isSome

/-- The effect of one successfully parsed transaction row:
`system.enqueue_transaction(...)` with its result ignored. -/
def enqueueRow (sys : InventorySystem) (r : TransactionRow) : InventorySystem :=
  match parseTimestamp r.timestamp, parseIntPy r.quantity with
  | some ts, some q => enqueueIgnore sys r.product_id r.type q ts
  | _, _ => sys

/-- The row loop of `load_transactions_from_csv` (src/main.py:35-48):
parse each row's timestamp and quantity and call `enqueue_transaction`; the
first conversion failure ends the whole load with an error message. -/
def loadTransactionsGo (sys : InventorySystem) (count : Nat)
    (rows : List TransactionRow) : (Bool × String) × InventorySystem :=
  match rows with
  | [] => ((true, "Queued " ++ toString count ++ " transactions"), sys)
  | r :: rest =>
      match parseTimestamp r.timestamp, parseIntPy r.quantity with
      | some ts, some q =>
          loadTransactionsGo (enqueueIgnore sys r.product_id r.type q ts)
            (count + 1) rest
      | _, _ => ((false, "Error: invalid row"), sys)

/-- Embeds `load_transactions_from_csv` (src/main.py:33-52): `none` models a
missing file; otherwise the row loop runs. -/
def load_transactions_from_csv (sys : InventorySystem)
    (file : Option (List TransactionRow)) : (Bool × String) × InventorySystem :=
  match file with
  | none => ((false, "Transactions file not found"), sys)
  | some rows => loadTransactionsGo sys 0 rows

/-- Outcome of one iteration of the `while True` menu loop in `main`:
loop again with a possibly updated system, leave the loop (`break`), or die
on an uncaught exception. -/
inductive StepResult where
  | next (sys : InventorySystem)
  | exited (sys : InventorySystem)
  | crashed
deriving DecidableEq

/-- The next pending line of user input; an exhausted script yields the
empty string (which every `int(...)`/`float(...)` call rejects). -/
def takeInput : List String → String × List String
  | [] => ("", [])
  | s :: r => (s, r)

/-- One iteration of the menu loop of `main` (src/main.py:92-193): the
choice string is stripped and dispatched; display-only actions (1, 2, 5, 6,
7, 8) loop with the system updated only by action 5's queue processing;
action 3 reads id/name/category and three numeric fields through unguarded
`int(...)`/`float(...)` calls, action 4 reads an id and one unguarded
`int(...)`; a conversion failure is an uncaught exception (`crashed`);
choice 9 breaks the loop; anything else prints an invalid-choice message
and loops with the system untouched.  The `inputs` list scripts the
value-carrying prompts of the chosen action; the decorative
"Press Enter to continue" pauses are abstracted away. -/
def mainStep (sys : InventorySystem) (choice : String) (inputs : List String) :
    StepResult :=
  let c := pyStrip choice
  if c = "1" then .next sys
  else if c = "2" then .next sys
  else if c = "3" then
    let s1 := takeInput inputs
    let s2 := takeInput s1.2
    let s3 := takeInput s2.2
    let s4 := takeInput s3.2
    match parseIntPy s4.1 with
    | none => .crashed
    | some qty =>
        let s5 := takeInput s4.2
        match parseFloatPy s5.1 with
        | none => .crashed
        | some price =>
            let s6 := takeInput s5.2
            match parseIntPy s6.1 with
            | none => .crashed
            | some th =>
                .next (addProductIgnore sys (pyUpper (pyStrip s1.1))
                  (pyStrip s2.1) (pyStrip s3.1) qty price th)
  else if c = "4" then
    let s1 := takeInput inputs
    let s2 := takeInput s1.2
    match parseIntPy s2.1 with
    | none => .crashed
    | some q => .next (updateQuantityIgnore sys (pyUpper (pyStrip s1.1)) q)
  else if c = "5" then .next (process_transactions sys).2
  else if c = "6" then .next sys
  else if c = "7" then .next sys
  else if c = "8" then .next sys
  else if c = "9" then .exited sys
  else .next sys

/-- Sample catalog entry used to instantiate the theorems below. -/
def sampleProductA : Product :=
  ⟨"A", "Widget", "Gadgets", 2, 5, 1, 0⟩

/-- Sample one-product system. -/
def sampleSys : InventorySystem :=
  ⟨[sampleProductA], []⟩

/-- Sample sale transaction asking for more than the sample stock. -/
def sampleSaleTx : Transaction :=
  ⟨"A", "sale", 3, ⟨2024, 1, 1, 0, 0, 0⟩⟩

/-- The store invariant: every product's quantity is non-negative. -/
def StoreWF (ps : List Product) : Prop :=
  ∀ p ∈ ps, 0 ≤ p.quantity

theorem setProduct_wf {ps : List Product} {q : Product}
    (h : StoreWF ps) (hq : 0 ≤ q.quantity) : StoreWF (setProduct ps q) := by
  intro p hp
  rcases List.mem_map.1 hp with ⟨x, hx, rfl⟩
  by_cases hid : x.id = q.id
  · simpa [hid] using hq
  · simpa [hid] using h x hx

theorem applyDelta_ok_wf {ps ps' : List Product} {id : String} {d : Int}
    (h : StoreWF ps) (hok : applyDelta ps id d = .ok ps') : StoreWF ps' := by
  unfold applyDelta at hok
  split at hok
  · exact absurd hok (by simp)
  · next p hf =>
      split at hok
      · exact absurd hok (by simp)
      · next hneg =>
          have hps := Except.ok.inj hok
          subst hps
          exact setProduct_wf h (by simpa using not_lt.1 hneg)

theorem processOne_wf {ps : List Product} (t : Transaction)
    (h : StoreWF ps) : StoreWF (processOne ps t).2 := by
  unfold processOne
  dsimp only
  split
  · exact h
  · next p hf =>
      split
      · exact h
      · next ps' hd => exact applyDelta_ok_wf h hd

theorem processList_wf {ps : List Product} (q : List Transaction)
    (h : StoreWF ps) : StoreWF (processList ps q).2 := by
  induction q generalizing ps with
  | nil => simpa [processList] using h
  | cons t rest ih =>
      simpa [processList] using ih (processOne_wf t h)

/-- C1: a sale transaction whose quantity exceeds the product's current
stock is processed to `Rejected(InsufficientStock)` and the store — hence
the product's quantity and total-sold — is left exactly as it was. -/
theorem sale_exceeding_stock_rejected_unchanged (ps : List Product)
    (t : Transaction) (p : Product)
    (hfind : findProduct ps t.productId = some p)
    (hkind : t.kind = "sale") (hqty : p.quantity < t.quantity) :
    processOne ps t = (.rejectedInsufficientStock t.productId, ps) := by
  have hd : (if t.kind = "sale" then -t.quantity else t.quantity) = -t.quantity := by
    rw [hkind]
    simp
  have hdelta : applyDelta ps t.productId (-t.quantity) = .error .insufficientStock := by
    unfold applyDelta
    rw [hfind]
    exact if_pos (by omega)
  unfold processOne
  rw [hfind]
  dsimp only
  rw [hd, hdelta]

/-- Witness for C1 at a concrete store and transaction. -/
theorem sale_exceeding_stock_rejected_unchanged_witness :
    findProduct sampleSys.products sampleSaleTx.productId = some sampleProductA ∧
    sampleSaleTx.kind = "sale" ∧
    sampleProductA.quantity < sampleSaleTx.quantity ∧
    processOne sampleSys.products sampleSaleTx =
      (.rejectedInsufficientStock sampleSaleTx.productId, sampleSys.products) :=
  ⟨by decide, by decide, by decide,
    sale_exceeding_stock_rejected_unchanged sampleSys.products sampleSaleTx
      sampleProductA (by decide) (by decide) (by decide)⟩

/-- C2: from any state satisfying the invariant, every operation — add,
setQuantity, applyDelta, processAll — yields a state in which every
product's quantity is non-negative; an operation that would drive a
quantity negative is rejected with an explicit error (and, the model being
functional, is not applied at all). -/
theorem quantities_nonneg_after_every_operation (sys : InventorySystem)
    (hWF : StoreWF sys.products) :
    (∀ id name cat qty price th sys',
        add_product sys id name cat qty price th = .ok sys' → StoreWF sys'.products) ∧
    (∀ id newQty sys',
        update_quantity sys id newQty = .ok sys' → StoreWF sys'.products) ∧
    (∀ id d ps', applyDelta sys.products id d = .ok ps' → StoreWF ps') ∧
    StoreWF (process_transactions sys).2.products ∧
    (∀ id newQty, newQty < 0 →
        update_quantity sys id newQty = .error .invalidArgument) ∧
    (∀ id d p, findProduct sys.products id = some p → p.quantity + d < 0 →
        applyDelta sys.products id d = .error .insufficientStock) := by
  refine ⟨?_, ?_, ?_, ?_, ?_, ?_⟩
  · intro id name cat qty price th sys' hok
    unfold add_product at hok
    split at hok
    · exact absurd hok (by simp)
    · next hneg =>
        split at hok
        · exact absurd hok (by simp)
        · have hsys := Except.ok.inj hok
          subst hsys
          intro p hp
          rcases List.mem_append.1 hp with h | h
          · exact hWF p h
          · have : p = ⟨normalizeId id, name, cat, qty, price, th, 0⟩ := by
              simpa using h
            subst this
            simp only [not_or] at hneg
            simpa using not_lt.1 hneg.1
  · intro id newQty sys' hok
    unfold update_quantity at hok
    split at hok
    · exact absurd hok (by simp)
    · next hneg =>
        split at hok
        · exact absurd hok (by simp)
        · next p hf =>
            have hsys := Except.ok.inj hok
            subst hsys
            exact setProduct_wf hWF (by simpa using not_lt.1 hneg)
  · intro id d ps' hok
    exact applyDelta_ok_wf hWF hok
  · exact processList_wf sys.queue hWF
  · intro id newQty hneg
    unfold update_quantity
    exact if_pos hneg
  · intro id d p hf hneg
    unfold applyDelta
    rw [hf]
    exact if_pos hneg

/-- Witness for C2 at a concrete state: the invariant holds of the sample
system, and processing its queue keeps it. -/
theorem quantities_nonneg_after_every_operation_witness :
    StoreWF sampleSys.products ∧
    StoreWF (process_transactions sampleSys).2.products :=
  ⟨by unfold StoreWF; decide,
    (quantities_nonneg_after_every_operation sampleSys
      (by unfold StoreWF; decide)).2.2.2.1⟩

theorem processOne_pid (ps : List Product) (t : Transaction) :
    (processOne ps t).1.pid = t.productId := by
  unfold processOne
  dsimp only
  split
  · rfl
  · split <;> rfl

theorem processOne_timestamp_irrelevant (ps : List Product) (t : Transaction)
    (ts : Timestamp) :
    processOne ps { t with timestamp := ts } = processOne ps t :=
  rfl

theorem processList_pids (ps : List Product) (q : List Transaction) :
    (processList ps q).1.map ProcessingResult.pid = q.map Transaction.productId := by
  induction q generalizing ps with
  | nil => rfl
  | cons t rest ih =>
      simp [processList, processOne_pid, ih]

theorem processList_timestamp_irrelevant (ps : List Product)
    (q : List Transaction) (f : Transaction → Timestamp) :
    processList ps (q.map (fun t => { t with timestamp := f t })) =
      processList ps q := by
  induction q generalizing ps with
  | nil => rfl
  | cons t rest ih =>
      simp [processList, processOne_timestamp_irrelevant, ih]

/-- C3: `processAll` handles the queued transactions in exactly their
enqueue (FIFO) order — the result log lines up one-to-one, in order, with
the queue — and the timestamps carried by the transactions have no
influence: rewriting every timestamp arbitrarily changes neither the
results nor the final state. -/
theorem process_all_fifo_timestamps_ignored (sys : InventorySystem)
    (f : Transaction → Timestamp) :
    (process_transactions sys).1.map ProcessingResult.pid =
      sys.queue.map Transaction.productId ∧
    process_transactions
        { sys with queue := sys.queue.map (fun t => { t with timestamp := f t }) } =
      process_transactions sys := by
  constructor
  · exact processList_pids sys.products sys.queue
  · unfold process_transactions
    simp [processList_timestamp_irrelevant]

instance : IsTotal Product rankRel :=
  ⟨by
    intro a b
    unfold rankRel
    rcases lt_trichotomy a.total_sold b.total_sold with h | h | h
    · exact Or.inr (Or.inl h)
    · rcases lt_trichotomy a.id b.id with hid | hid | hid
      · exact Or.inl (Or.inr ⟨h, Or.inl hid⟩)
      · exact Or.inl (Or.inr ⟨h, Or.inr hid⟩)
      · exact Or.inr (Or.inr ⟨h.symm, Or.inl hid⟩)
    · exact Or.inl (Or.inl h)⟩

instance : IsTrans Product rankRel :=
  ⟨by
    intro a b c hab hbc
    unfold rankRel at *
    rcases hab with h1 | ⟨e1, h1⟩ <;> rcases hbc with h2 | ⟨e2, h2⟩
    · exact Or.inl (lt_trans h2 h1)
    · exact Or.inl (by omega)
    · exact Or.inl (by omega)
    · refine Or.inr ⟨by omega, ?_⟩
      rcases h1 with h1 | h1 <;> rcases h2 with h2 | h2
      · exact Or.inl (lt_trans h1 h2)
      · exact Or.inl (h2 ▸ h1)
      · exact Or.inl (h1 ▸ h2)
      · exact Or.inr (h1.trans h2)⟩

instance : IsTotal Alert alertRel :=
  ⟨fun a b => le_total b.shortage a.shortage⟩

instance : IsTrans Alert alertRel :=
  ⟨fun _ _ _ hab hbc => le_trans hbc hab⟩

/-- C4: `topSellers(k)` on a non-empty catalog returns the first `k`
entries of the catalog sorted by total-sold descending with ties broken by
product id ascending: at most `k` entries, non-increasing in total-sold
(also at the level of the returned `(name, totalSold)` pairs), and for
`k ≥` catalog size it is the whole catalog so sorted. -/
theorem top_sellers_sorted_bounded (sys : InventorySystem) (k : Nat)
    (h : sys.products ≠ []) :
    get_top_sellers sys k =
      Sum.inr (((rankedProducts sys.products).take k).map
        (fun p => (p.name, p.total_sold))) ∧
    (((rankedProducts sys.products).take k).map
        (fun p => (p.name, p.total_sold))).length ≤ k ∧
    List.Sorted rankRel ((rankedProducts sys.products).take k) ∧
    List.Sorted (fun x y : String × Int => y.2 ≤ x.2)
      (((rankedProducts sys.products).take k).map
        (fun p => (p.name, p.total_sold))) ∧
    (sys.products.length ≤ k →
      (rankedProducts sys.products).take k = rankedProducts sys.products ∧
      (rankedProducts sys.products).Perm sys.products ∧
      List.Sorted rankRel (rankedProducts sys.products)) := by
  have hsorted : List.Sorted rankRel (rankedProducts sys.products) :=
    List.sorted_insertionSort rankRel sys.products
  have htake : List.Sorted rankRel ((rankedProducts sys.products).take k) :=
    List.Pairwise.sublist (List.take_sublist k _) hsorted
  refine ⟨?_, ?_, htake, ?_, ?_⟩
  · unfold get_top_sellers
    rw [if_neg h]
  · rw [List.length_map, List.length_take]
    exact min_le_left _ _
  · refine List.Pairwise.map _ ?_ htake
    intro a b hab
    rcases hab with h1 | ⟨e1, _⟩
    · exact le_of_lt h1
    · exact le_of_eq e1.symm
  · intro hk
    have hlen : (rankedProducts sys.products).length ≤ k := by
      unfold rankedProducts
      rw [List.length_insertionSort]
      exact hk
    exact ⟨List.take_of_length_le hlen,
      List.perm_insertionSort rankRel sys.products, hsorted⟩

/-- Witness for C4 at a concrete one-product system. -/
theorem top_sellers_sorted_bounded_witness :
    sampleSys.products ≠ [] ∧
    get_top_sellers sampleSys 5 =
      Sum.inr (((rankedProducts sampleSys.products).take 5).map
        (fun p => (p.name, p.total_sold))) :=
  ⟨by decide, (top_sellers_sorted_bounded sampleSys 5 (by decide)).1⟩

/-- C5: `lowStockAlerts` consists of exactly one alert per product whose
quantity is strictly below its threshold — with
`shortage = threshold − quantity`, strictly positive — ordered by shortage
descending, and is empty exactly when no product is below threshold. -/
theorem low_stock_alerts_exact_and_sorted (sys : InventorySystem) :
    (get_low_stock_alerts sys).Perm
      ((sys.products.filter (fun p => decide (p.quantity < p.threshold))).map mkAlert) ∧
    List.Sorted alertRel (get_low_stock_alerts sys) ∧
    (∀ a ∈ get_low_stock_alerts sys, ∃ p ∈ sys.products,
      p.quantity < p.threshold ∧ a = mkAlert p ∧
      a.shortage = p.threshold - p.quantity ∧ 0 < a.shortage) ∧
    (∀ p ∈ sys.products, p.quantity < p.threshold →
      mkAlert p ∈ get_low_stock_alerts sys) ∧
    (get_low_stock_alerts sys = [] ↔
      ∀ p ∈ sys.products, ¬ p.quantity < p.threshold) := by
  have hperm : (get_low_stock_alerts sys).Perm
      ((sys.products.filter (fun p => decide (p.quantity < p.threshold))).map mkAlert) :=
    List.perm_insertionSort alertRel _
  refine ⟨hperm, List.sorted_insertionSort alertRel _, ?_, ?_, ?_⟩
  · intro a ha
    have ha' := hperm.mem_iff.1 ha
    rcases List.mem_map.1 ha' with ⟨p, hp, rfl⟩
    rcases List.mem_filter.1 hp with ⟨hpmem, hplow⟩
    have hlow : p.quantity < p.threshold := by simpa using hplow
    exact ⟨p, hpmem, hlow, rfl, rfl, by simpa [mkAlert] using by omega⟩
  · intro p hp hlow
    refine hperm.mem_iff.2 (List.mem_map.2 ⟨p, List.mem_filter.2 ⟨hp, ?_⟩, rfl⟩)
    simpa using hlow
  · constructor
    · intro hempty p hp hlow
      have : mkAlert p ∈ ([] : List Alert) := by
        rw [← hempty]
        exact hperm.mem_iff.2 (List.mem_map.2 ⟨p, List.mem_filter.2 ⟨hp, by simpa using hlow⟩, rfl⟩)
      simp at this
    · intro hnone
      have hfil : (sys.products.filter (fun p => decide (p.quantity < p.threshold))) = [] := by
        rw [List.filter_eq_nil_iff]
        intro p hp
        simpa using hnone p hp
      have hp2 := hperm
      rw [hfil] at hp2
      simpa using hp2.eq_nil

/-- C6: on an empty catalog `topSellers(k)` yields the descriptive "no
data" string — never a list, in particular never the empty list — for every
`k` and whatever is sitting in the queue. -/
theorem top_sellers_empty_catalog_signal (q : List Transaction) (k : Nat) :
    get_top_sellers ⟨[], q⟩ k = Sum.inl "No sales data available" ∧
    ∀ l, get_top_sellers ⟨[], q⟩ k ≠ Sum.inr l := by
  constructor
  · rfl
  · intro l hl
    have h1 : get_top_sellers ⟨[], q⟩ k = Sum.inl "No sales data available" := rfl
    rw [h1] at hl
    exact Sum.noConfusion hl

/-- A well-formed products row (its numbers parse). -/
def rowA : ProductRow :=
  ⟨"A1", "Alpha", "Cat", "10", "5", "3"⟩

/-- A malformed products row: `int("abc")` raises in the loader. -/
def rowBad : ProductRow :=
  ⟨"B1", "Beta", "Cat", "abc", "5", "3"⟩

/-- A second well-formed products row, sitting after the malformed one. -/
def rowC : ProductRow :=
  ⟨"C1", "Gamma", "Cat", "7", "5", "2"⟩

/-- The empty starting system. -/
def sysEmpty : InventorySystem :=
  ⟨[], []⟩

/-- C7 counterexample: with rows (good, malformed, good), the load stops at
the malformed row — the load fails as a whole, the earlier row A1 is in the
store, and the later well-formed row C1 was never loaded, contradicting
"a failing row does not prevent subsequent rows from being loaded". -/
theorem products_loader_drops_rows_after_failure :
    load_products_from_csv sysEmpty (some [rowA, rowBad, rowC]) =
      ((false, "Error: invalid row"),
        ⟨[⟨"A1", "Alpha", "Cat", 10, 5, 3, 0⟩], []⟩) ∧
    findProduct
      (load_products_from_csv sysEmpty (some [rowA, rowBad, rowC])).2.products
      "A1" = some ⟨"A1", "Alpha", "Cat", 10, 5, 3, 0⟩ ∧
    findProduct
      (load_products_from_csv sysEmpty (some [rowA, rowBad, rowC])).2.products
      "C1" = none := by
  refine ⟨by decide, by decide, by decide⟩

theorem loadProductsGo_all_parse (rows : List ProductRow) :
    ∀ (sys : InventorySystem) (count : Nat), (∀ r ∈ rows, productRowParses r) →
    loadProductsGo sys count rows =
      ((true, "Loaded " ++ toString (count + rows.length) ++ " products"),
        rows.foldl addRow sys) := by
  induction rows with
  | nil => intro sys count _; simp [loadProductsGo]
  | cons r rest ih =>
      intro sys count hall
      have hr : productRowParses r := hall r (List.mem_cons_self r rest)
      unfold productRowParses at hr
      rcases h1 : parseIntPy r.initial_qty with _ | q
      · rw [h1] at hr; simp at hr
      rcases h2 : parseFloatPy r.price with _ | pr
      · rw [h1, h2] at hr; simp at hr
      rcases h3 : parseIntPy r.threshold with _ | th
      · rw [h1, h2, h3] at hr; simp at hr
      have hrest : ∀ x ∈ rest, productRowParses x :=
        fun x hx => hall x (List.mem_cons_of_mem r hx)
      rw [loadProductsGo, h1, h2, h3]
      dsimp only
      rw [ih _ (count + 1) hrest]
      have : count + 1 + rest.length = count + (rest.length + 1) := by omega
      simp [addRow, h1, h2, h3, this]

theorem loadProductsGo_aborts (pre : List ProductRow) :
    ∀ (sys : InventorySystem) (count : Nat) (bad : ProductRow)
      (post : List ProductRow),
    (∀ r ∈ pre, productRowParses r) → productRowParses bad = false →
    loadProductsGo sys count (pre ++ bad :: post) =
      ((false, "Error: invalid row"), pre.foldl addRow sys) := by
  induction pre with
  | nil =>
      intro sys count bad post _ hbad
      unfold productRowParses at hbad
      rw [List.nil_append, loadProductsGo]
      rcases h1 : parseIntPy bad.initial_qty with _ | q
      · simp
      rcases h2 : parseFloatPy bad.price with _ | pr
      · simp
      rcases h3 : parseIntPy bad.threshold with _ | th
      · simp
      rw [h1, h2, h3] at hbad
      simp at hbad
  | cons r rest ih =>
      intro sys count bad post hall hbad
      have hr : productRowParses r := hall r (List.mem_cons_self r rest)
      unfold productRowParses at hr
      rcases h1 : parseIntPy r.initial_qty with _ | q
      · rw [h1] at hr; simp at hr
      rcases h2 : parseFloatPy r.price with _ | pr
      · rw [h1, h2] at hr; simp at hr
      rcases h3 : parseIntPy r.threshold with _ | th
      · rw [h1, h2, h3] at hr; simp at hr
      have hrest : ∀ x ∈ rest, productRowParses x :=
        fun x hx => hall x (List.mem_cons_of_mem r hx)
      rw [List.cons_append, loadProductsGo, h1, h2, h3]
      dsimp only
      rw [ih _ (count + 1) bad post hrest hbad]
      simp [addRow, h1, h2, h3]

/-- C7 amended: the product loader applies rows left to right (ignoring
per-row `add` rejections such as duplicates); when every row's numbers
parse the whole file is loaded and reported a success, but the first row
whose numeric fields fail to convert aborts the load: the loader returns a
load-level failure message, rows before the failure stay in the store, and
the rows after it are never loaded; a missing file fails with its own
message and leaves the system untouched. -/
theorem products_loader_abort_semantics (sys : InventorySystem) :
    (∀ rows : List ProductRow, (∀ r ∈ rows, productRowParses r) →
      load_products_from_csv sys (some rows) =
        ((true, "Loaded " ++ toString rows.length ++ " products"),
          rows.foldl addRow sys)) ∧
    (∀ (pre : List ProductRow) (bad : ProductRow) (post : List ProductRow),
      (∀ r ∈ pre, productRowParses r) → productRowParses bad = false →
      load_products_from_csv sys (some (pre ++ bad :: post)) =
        ((false, "Error: invalid row"), pre.foldl addRow sys)) ∧
    load_products_from_csv sys none = ((false, "Products file not found"), sys) := by
  refine ⟨?_, ?_, rfl⟩
  · intro rows hall
    unfold load_products_from_csv
    dsimp only
    rw [loadProductsGo_all_parse rows sys 0 hall]
    simp
  · intro pre bad post hall hbad
    unfold load_products_from_csv
    dsimp only
    exact loadProductsGo_aborts pre sys 0 bad post hall hbad

/-- Witness for C7's amended statement at a concrete row list. -/
theorem products_loader_abort_semantics_witness :
    (∀ r ∈ [rowA], productRowParses r) ∧ productRowParses rowBad = false ∧
    load_products_from_csv sysEmpty (some ([rowA] ++ rowBad :: [rowC])) =
      ((false, "Error: invalid row"), [rowA].foldl addRow sysEmpty) :=
  ⟨by decide, by decide,
    (products_loader_abort_semantics sysEmpty).2.1 [rowA] rowBad [rowC]
      (by decide) (by decide)⟩

/-- A transaction row whose fields all parse but whose quantity is zero:
`enqueue` (spec §4.2) rejects it, yet the loader counts it as queued. -/
def txRowZero : TransactionRow :=
  ⟨"A1", "sale", "0", "2024-01-01 10:00:00"⟩

/-- A well-formed transaction row. -/
def txRowGood : TransactionRow :=
  ⟨"A1", "sale", "2", "2024-01-02 09:15:30"⟩

/-- A malformed transaction row (bad timestamp format). -/
def txRowBad : TransactionRow :=
  ⟨"A1", "sale", "2", "2024/01/02 09:15:30"⟩

/-- C8 counterexample: a row whose timestamp and quantity both parse but
whose quantity is zero is rejected by `enqueue` (quantity must be positive)
while the loader ignores that result: the load reports success
"Queued 1 transactions" yet the queue gains no transaction — so the loader
does not enqueue one transaction per row. -/
theorem transactions_loader_counts_unenqueued_row :
    load_transactions_from_csv sysEmpty (some [txRowZero]) =
      ((true, "Queued 1 transactions"), sysEmpty) ∧
    (load_transactions_from_csv sysEmpty (some [txRowZero])).2.queue = [] := by
  refine ⟨by decide, by decide⟩

theorem loadTransactionsGo_all_parse (rows : List TransactionRow) :
    ∀ (sys : InventorySystem) (count : Nat), (∀ r ∈ rows, txRowParses r) →
    loadTransactionsGo sys count rows =
      ((true, "Queued " ++ toString (count + rows.length) ++ " transactions"),
        rows.foldl enqueueRow sys) := by
  induction rows with
  | nil => intro sys count _; simp [loadTransactionsGo]
  | cons r rest ih =>
      intro sys count hall
      have hr : txRowParses r := hall r (List.mem_cons_self r rest)
      unfold txRowParses at hr
      rcases h1 : parseTimestamp r.timestamp with _ | ts
      · rw [h1] at hr; simp at hr
      rcases h2 : parseIntPy r.quantity with _ | q
      · rw [h1, h2] at hr; simp at hr
      have hrest : ∀ x ∈ rest, txRowParses x :=
        fun x hx => hall x (List.mem_cons_of_mem r hx)
      rw [loadTransactionsGo, h1, h2]
      dsimp only
      rw [ih _ (count + 1) hrest]
      have : count + 1 + rest.length = count + (rest.length + 1) := by omega
      simp [enqueueRow, h1, h2, this]

theorem loadTransactionsGo_aborts (pre : List TransactionRow) :
    ∀ (sys : InventorySystem) (count : Nat) (bad : TransactionRow)
      (post : List TransactionRow),
    (∀ r ∈ pre, txRowParses r) → txRowParses bad = false →
    loadTransactionsGo sys count (pre ++ bad :: post) =
      ((false, "Error: invalid row"), pre.foldl enqueueRow sys) := by
  induction pre with
  | nil =>
      intro sys count bad post _ hbad
      unfold txRowParses at hbad
      rw [List.nil_append, loadTransactionsGo]
      rcases h1 : parseTimestamp bad.timestamp with _ | ts
      · simp
      rcases h2 : parseIntPy bad.quantity with _ | q
      · simp
      rw [h1, h2] at hbad
      simp at hbad
  | cons r rest ih =>
      intro sys count bad post hall hbad
      have hr : txRowParses r := hall r (List.mem_cons_self r rest)
      unfold txRowParses at hr
      rcases h1 : parseTimestamp r.timestamp with _ | ts
      · rw [h1] at hr; simp at hr
      rcases h2 : parseIntPy r.quantity with _ | q
      · rw [h1, h2] at hr; simp at hr
      have hrest : ∀ x ∈ rest, txRowParses x :=
        fun x hx => hall x (List.mem_cons_of_mem r hx)
      rw [List.cons_append, loadTransactionsGo, h1, h2]
      dsimp only
      rw [ih _ (count + 1) bad post hrest hbad]
      simp [enqueueRow, h1, h2]

/-- C8 amended: the transaction loader parses each row's timestamp in the
fixed `YYYY-MM-DD HH:MM:SS` format and calls `enqueue` once per row, but a
row that `enqueue` rejects (non-positive quantity or unrecognized kind) is
counted yet adds nothing to the queue; an absent file, or any row whose
timestamp or quantity fails to parse, fails the whole load with a
descriptive message (rows before the failing one staying enqueued) instead
of raising an unhandled error. -/
theorem transactions_loader_abort_semantics (sys : InventorySystem) :
    (∀ rows : List TransactionRow, (∀ r ∈ rows, txRowParses r) →
      load_transactions_from_csv sys (some rows) =
        ((true, "Queued " ++ toString rows.length ++ " transactions"),
          rows.foldl enqueueRow sys)) ∧
    (∀ (pre : List TransactionRow) (bad : TransactionRow)
        (post : List TransactionRow),
      (∀ r ∈ pre, txRowParses r) → txRowParses bad = false →
      load_transactions_from_csv sys (some (pre ++ bad :: post)) =
        ((false, "Error: invalid row"), pre.foldl enqueueRow sys)) ∧
    load_transactions_from_csv sys none =
      ((false, "Transactions file not found"), sys) := by
  refine ⟨?_, ?_, rfl⟩
  · intro rows hall
    unfold load_transactions_from_csv
    dsimp only
    rw [loadTransactionsGo_all_parse rows sys 0 hall]
    simp
  · intro pre bad post hall hbad
    unfold load_transactions_from_csv
    dsimp only
    exact loadTransactionsGo_aborts pre sys 0 bad post hall hbad

/-- Witness for C8's amended statement at a concrete row list. -/
theorem transactions_loader_abort_semantics_witness :
    (∀ r ∈ [txRowGood], txRowParses r) ∧ txRowParses txRowBad = false ∧
    load_transactions_from_csv sysEmpty (some ([txRowGood] ++ txRowBad :: [])) =
      ((false, "Error: invalid row"), [txRowGood].foldl enqueueRow sysEmpty) :=
  ⟨by decide, by decide,
    (transactions_loader_abort_semantics sysEmpty).2.1 [txRowGood] txRowBad []
      (by decide) (by decide)⟩

/-- The nine menu choices the loop recognizes (src/main.py:96-189). -/
def menuChoices : List String :=
  ["1", "2", "3", "4", "5", "6", "7", "8", "9"]

/-- C9: any choice whose stripped form is none of "1"–"9" falls through to
the invalid-choice branch: the loop prints a message and shows the menu
again, with the system untouched — it neither crashes nor exits. -/
theorem invalid_menu_choice_reprompts (sys : InventorySystem)
    (choice : String) (inputs : List String)
    (h : pyStrip choice ∉ menuChoices) :
    mainStep sys choice inputs = .next sys := by
  have h1 : ¬ pyStrip choice = "1" := fun e => h (by rw [e]; simp [menuChoices])
  have h2 : ¬ pyStrip choice = "2" := fun e => h (by rw [e]; simp [menuChoices])
  have h3 : ¬ pyStrip choice = "3" := fun e => h (by rw [e]; simp [menuChoices])
  have h4 : ¬ pyStrip choice = "4" := fun e => h (by rw [e]; simp [menuChoices])
  have h5 : ¬ pyStrip choice = "5" := fun e => h (by rw [e]; simp [menuChoices])
  have h6 : ¬ pyStrip choice = "6" := fun e => h (by rw [e]; simp [menuChoices])
  have h7 : ¬ pyStrip choice = "7" := fun e => h (by rw [e]; simp [menuChoices])
  have h8 : ¬ pyStrip choice = "8" := fun e => h (by rw [e]; simp [menuChoices])
  have h9 : ¬ pyStrip choice = "9" := fun e => h (by rw [e]; simp [menuChoices])
  unfold mainStep
  simp only [h1, h2, h3, h4, h5, h6, h7, h8, h9, if_false]

/-- Witness for C9 at a concrete junk choice. -/
theorem invalid_menu_choice_reprompts_witness :
    pyStrip "hello" ∉ menuChoices ∧
    mainStep sampleSys "hello" [] = .next sampleSys :=
  ⟨by decide, invalid_menu_choice_reprompts sampleSys "hello" [] (by decide)⟩

/-- C10: the no-crash guarantee stops at the menu prompt — a non-numeric
string fed to the unguarded `int(...)` prompts of action 3 (Add New
Product: Initial Quantity) or action 4 (Update Stock Quantity: new
quantity) raises an exception no handler in the loop catches, terminating
the program. -/
theorem numeric_prompts_crash_on_nonnumeric_input :
    mainStep sampleSys "3" ["P1", "Widget", "Gadgets", "abc", "5", "3"] = .crashed ∧
    mainStep sampleSys "4" ["P1", "xyz"] = .crashed := by
  refine ⟨by decide, by decide⟩
